import Mathlib

/-!
Verification of the `task-master` load generator (src/init.py) against its
specification.  The Python source is shallowly embedded below: the duration
parser `_parse_tiempo` is modelled including the exact behaviour of the
regular expressions it uses, and the pacing loop `run_simulator` is modelled
as a pure function from explicit oracles (random draws, clock advances, the
stop flag) to a trace of observable effects.  Character classes are modelled
over ASCII, which covers every input the claims mention.
-/

namespace TaskMaster

/-- Model of Python regex `\d` (ASCII fragment). -/
def isDigitChar (c : Char) : Bool := c.isDigit

/-- Model of Python regex `\s` (ASCII fragment: space, tab, newline, CR, FF, VT). -/
def isSpaceChar (c : Char) : Bool :=
  c = ' ' || c = '\t' || c = '\n' || c = '\r' || c = '\x0c' || c = '\x0b'

/-- Model of Python regex `\w` (ASCII fragment: alphanumeric or underscore). -/
def isWordChar (c : Char) : Bool := c.isAlphanum || c = '_'

/-- Value of an ASCII digit string, as computed by Python `int(v)`. -/
def digitsToNat (ds : List Char) : Nat :=
  ds.foldl (fun acc c => 10 * acc + (c.toNat - 48)) 0

/-- One attempted match of the pattern `(\d+)\s*KEY\b` at the head of `s`
(src/init.py line 61).  `KEY` starts with a letter, so the greedy runs of
digits and whitespace never need to backtrack.  On success, returns the
captured quantity and the remainder of the string after the match. -/
def matchAt (key : List Char) (s : List Char) : Option (Nat × List Char) :=
  let ds := s.takeWhile isDigitChar
  let r1 := s.dropWhile isDigitChar
  if ds.isEmpty then none
  else
    let r2 := r1.dropWhile isSpaceChar
    if key.isPrefixOf r2 then
      let rest := r2.drop key.length
      match rest with
      | [] => some (digitsToNat ds, [])
      | c :: _ => if isWordChar c then none else some (digitsToNat ds, rest)
    else none

/-- `re.findall` for the pattern `(\d+)\s*KEY\b`: scan left to right, on a
failed match advance one character, on a successful match continue after its
end (matches do not overlap).  Fuel-indexed for structural recursion; the
fuel `s.length` in `findall` is always sufficient because every step
consumes at least one character. -/
def findallF (key : List Char) : Nat → List Char → List Nat
  | 0, _ => []
  | _ + 1, [] => []
  | fuel + 1, c :: rest =>
    match matchAt key (c :: rest) with
    | some (v, r) => v :: findallF key fuel r
    | none => findallF key fuel rest

/-- All captures of `(\d+)\s*KEY\b` in `s`, in order. -/
def findall (key : List Char) (s : List Char) : List Nat :=
  findallF key s.length s

/-- `tiempo_str.lower().replace(" ", "")` (src/init.py line 57), ASCII model. -/
def normalize (s : List Char) : List Char :=
  (s.map Char.toLower).filter (fun c => c ≠ ' ')

/-- The pattern table of src/init.py line 59, in dict insertion order. -/
def patterns : List (List Char × Nat) :=
  [(['h', 'r'], 3600), (['h'], 3600), (['m', 'i', 'n'], 60), (['m'], 60)]

/-- Total contribution of one pattern: sum of `int(v) * mult` over its
matches (src/init.py line 62). -/
def tokenSum (key : List Char) (mult : Nat) (s : List Char) : Nat :=
  ((findall key s).map (fun v => v * mult)).sum

/-- `_parse_tiempo` (src/init.py lines 56-65).  `none` models the
`ValueError` raised when the total is zero. -/
def _parse_tiempo (t : String) : Option Nat :=
  let s := normalize t.data
  let total := (patterns.map (fun p => tokenSum p.1 p.2 s)).sum
  if total = 0 then none else some total

/-- The fixed extension set (src/init.py line 11). -/
def EXTENSIONS : List String := [".payf", ".deb", ".transfer", ".credit", ".cash"]

/-- Maximum artifact size in bytes (src/init.py line 12). -/
def MAX_SIZE : Nat := 5 * 1024

/-- The message of the simulated failure (src/init.py line 102). -/
def simFailureMsg : String := "Error simulado: fallo de escritura en disco"

/-- Fallback extension for the list lookup; never reached since the index
is reduced modulo the list length. -/
def defaultExt : String := ".payf"

/-- Observable effects of one run, in program order.  `ensureDirs` and
`setupLogging` stand for the directory creation and log-sink setup
(including the possible header write) of lines 84-85; `createFile` is the
materialization of one artifact; `metric` and `error` are the rows handed
to the metrics and error sinks; `sleep` is a blocking delay in seconds. -/
inductive Effect where
  | ensureDirs (base : String)
  | setupLogging
  | createFile (filename : String) (size : Nat)
  | metric (i : Nat) (filename : String) (ext : String) (size : Nat) (elapsed : ℚ)
  | error (i : Nat) (msg : String)
  | sleep (d : ℚ)
deriving DecidableEq, Repr

/-- The two pre-flight failures that propagate to the caller:
`invalidFormat` is the `ValueError` of line 64, `invalidCount` the one of
line 89. -/
inductive RunError where
  | invalidFormat
  | invalidCount
deriving DecidableEq, Repr

/-- Oracles for everything external to the scheduling logic, indexed by the
global event counter (or, for `stop`, by the index of the read): random
draws, the wall/monotonic clock advance spent inside one event body, the
process id, possible I/O failures during artifact materialization, and the
process-wide stop flag set by the signal handler. -/
structure Oracle where
  stop : Nat → Bool
  failSim : Nat → Bool
  sizeRand : Nat → Nat
  extRand : Nat → Nat
  tsMs : Nat → Nat
  randBits : Nat → Nat
  ioFail : Nat → Option String
  procTime : Nat → ℚ
  pid : Nat

/-- Scheduler state: the monotonic clock and the global event counter
(which also indexes the oracles; the stop flag reads of event `n` have
indices `2*n` and `2*n+1`). -/
structure SimState where
  clock : ℚ
  n : Nat
deriving DecidableEq, Repr

/-- `_random_size` (src/init.py lines 68-69): `random.randint(1, max_size)`
if `max_size > 1` else 1; the inclusive-range draw is modelled as
`1 + r % max_size`, which realises exactly the values 1..max_size. -/
def _random_size (r : Nat) (max_size : Nat) : Nat :=
  if max_size > 1 then 1 + r % max_size else 1

/-- `random.choice(EXTENSIONS)` (line 105), modelled by an oracle index
reduced modulo the list length. -/
def extChoice (r : Nat) : String :=
  EXTENSIONS.getD (r % EXTENSIONS.length) defaultExt

/-- Little-endian decimal digits of `n`, fuel-indexed so that it reduces
structurally; `fuel = n` always suffices. -/
def decDigitsAux : Nat → Nat → List Nat
  | 0, _ => []
  | _ + 1, 0 => []
  | fuel + 1, m + 1 => ((m + 1) % 10) :: decDigitsAux fuel ((m + 1) / 10)

/-- Decimal digit characters of `n`, as produced by Python string
formatting of a nonnegative integer. -/
def decRepr (n : Nat) : List Char :=
  if n = 0 then ['0']
  else ((decDigitsAux n n).map (fun d => Char.ofNat (48 + d))).reverse

/-- The identifier of src/init.py line 75: `timestamp-pid-randbits`. -/
def uniqueId (ts pid bits : Nat) : List Char :=
  decRepr ts ++ '-' :: (decRepr pid ++ '-' :: decRepr bits)

/-- `_create_file` (lines 72-80): the returned filename `unique + ext`.
The payload write is recorded as a `createFile` effect by the caller. -/
def _create_file (ts pid bits : Nat) (ext : String) : String :=
  String.mk (uniqueId ts pid bits ++ ext.data)

/-- Artifact size drawn for event `n` (line 104). -/
def drawSize (o : Oracle) (n : Nat) : Nat := _random_size (o.sizeRand n) MAX_SIZE

/-- Extension drawn for event `n` (line 105). -/
def drawExt (o : Oracle) (n : Nat) : String := extChoice (o.extRand n)

/-- Filename produced for event `n` (line 106); `getrandbits(20)` yields a
value below `2 ^ 20`. -/
def drawName (o : Oracle) (n : Nat) : String :=
  _create_file (o.tsMs n) o.pid (o.randBits n % 2 ^ 20) (drawExt o n)

/-- The try/except body of one event (lines 100-112): a simulated failure
(probability draw, lines 101-102) or a real materialization failure
(caught at 110) each produce one error record tagged with the loop index
`i`; otherwise the artifact is written and one metric record is emitted
with the elapsed time `now - start_cycle`. -/
def tryBody (o : Oracle) (start_cycle clock1 : ℚ) (i n : Nat) : List Effect :=
  if o.failSim n then [Effect.error i simFailureMsg]
  else
    match o.ioFail n with
    | some msg => [Effect.error i msg]
    | none =>
      [Effect.createFile (drawName o n) (drawSize o n),
       Effect.metric i (drawName o n) (drawExt o n) (drawSize o n) (clock1 - start_cycle)]

/-- One iteration of the inner loop (lines 97-120) for event index `i` of
the current cycle: check the stop flag at the loop head (line 98); run the
try-block; compute `sleep_until = start_cycle + (i+1)*interval` and sleep
`sleep_until - now` when positive (114-117); re-check the stop flag
(119-120).  Returns the effects, the new state, and whether the run
returned. -/
def eventStep (o : Oracle) (interval start_cycle : ℚ) (i : Nat)
    (st : SimState) : List Effect × SimState × Bool :=
  if o.stop (2 * st.n) then ([], st, true)
  else
    let clock1 : ℚ := st.clock + o.procTime st.n
    let sleep_until : ℚ := start_cycle + ((i : ℚ) + 1) * interval
    let to_sleep : ℚ := sleep_until - clock1
    let p : List Effect × ℚ :=
      if to_sleep > 0 then ([Effect.sleep to_sleep], sleep_until) else ([], clock1)
    (tryBody o start_cycle clock1 i st.n ++ p.1, ⟨p.2, st.n + 1⟩,
     o.stop (2 * st.n + 1))

/-- The inner `for i in range(cantidad)` loop: run the events in order,
returning as soon as a stop-flag read comes back true. -/
def runEvents (o : Oracle) (interval start_cycle : ℚ) :
    List Nat → SimState → List Effect × SimState × Bool
  | [], st => ([], st, false)
  | i :: is, st =>
    let r := eventStep o interval start_cycle i st
    if r.2.2 then r
    else
      let r2 := runEvents o interval start_cycle is r.2.1
      (r.1 ++ r2.1, r2.2.1, r2.2.2)

/-- The outer `while True` loop (lines 94-128), fuel-bounded: run one cycle
of events anchored at the current clock; stop if the stop flag was seen;
terminate after one cycle when `loop` is false (line 122-123); otherwise
sleep `max(0, total_seconds - elapsed_cycle)` when positive (125-128) and
begin the next cycle.  Exhausted fuel truncates an infinite repeat run, so
every result is a faithful prefix of the real execution. -/
def runCycles (o : Oracle) (T : Nat) (cantidad : Nat) (interval : ℚ)
    (loop : Bool) : Nat → SimState → List Effect × SimState × Bool
  | 0, st => ([], st, false)
  | fuel + 1, st =>
    let start_cycle := st.clock
    let r := runEvents o interval start_cycle (List.range cantidad) st
    if r.2.2 then r
    else if loop = false then r
    else
      let elapsed : ℚ := r.2.1.clock - start_cycle
      let idle : ℚ := max 0 ((T : ℚ) - elapsed)
      let p : List Effect × SimState :=
        if idle > 0 then ([Effect.sleep idle], ⟨r.2.1.clock + idle, r.2.1.n⟩)
        else ([], r.2.1)
      let r3 := runCycles o T cantidad interval loop fuel p.2
      (r.1 ++ p.1 ++ r3.1, r3.2.1, r3.2.2)

/-- The interval computation of lines 91-92: `total_seconds / cantidad`
when `cantidad > 0` (true division), else `total_seconds`, then clamped to
be nonnegative. -/
def intervalFor (T : Nat) (cantidad : Int) : ℚ :=
  max (if cantidad > 0 then (T : ℚ) / (cantidad : ℚ) else (T : ℚ)) 0

/-- `run_simulator` (lines 83-128): directory creation and log setup come
first (84-85), then the duration parse (86) whose failure propagates, then
the count validation (88-89) whose failure propagates, then the cycle
loop.  Returns the effect trace and the propagated error, if any. -/
def run_simulator (o : Oracle) (tiempo : String) (cantidad : Int)
    (base_path : String) (loop : Bool) (fuel : Nat) :
    List Effect × Option RunError :=
  let pre : List Effect := [Effect.ensureDirs base_path, Effect.setupLogging]
  match _parse_tiempo tiempo with
  | none => (pre, some RunError.invalidFormat)
  | some T =>
    if cantidad ≤ 0 then (pre, some RunError.invalidCount)
    else
      let r := runCycles o T cantidad.toNat (intervalFor T cantidad) loop fuel ⟨0, 0⟩
      (pre ++ r.1, none)

/-- Filenames of the artifact-creation effects of a trace, in order. -/
def createdNames (l : List Effect) : List String :=
  l.filterMap (fun e =>
    match e with
    | Effect.createFile fn _ => some fn
    | _ => none)

/-- The error records of a trace: event index and failure description. -/
def errorRecords (l : List Effect) : List (Nat × String) :=
  l.filterMap (fun e =>
    match e with
    | Effect.error i m => some (i, m)
    | _ => none)

/-- The event indices of the metric records of a trace. -/
def metricRecords (l : List Effect) : List Nat :=
  l.filterMap (fun e =>
    match e with
    | Effect.metric i _ _ _ _ => some i
    | _ => none)

/-- Number of Event/Error records (metric and error rows combined). -/
def recCount (l : List Effect) : Nat :=
  (l.map (fun e =>
    match e with
    | Effect.metric _ _ _ _ _ => 1
    | Effect.error _ _ => 1
    | _ => 0)).sum

/-- Number of artifact creations in a trace. -/
def creCount (l : List Effect) : Nat :=
  (l.map (fun e =>
    match e with
    | Effect.createFile _ _ => 1
    | _ => 0)).sum

/-- Total seconds slept in a trace. -/
def sleepTotal (l : List Effect) : ℚ :=
  (l.map (fun e =>
    match e with
    | Effect.sleep d => d
    | _ => 0)).sum

/-- A concrete oracle: no failures, no stop request, constant draws. -/
def o0 : Oracle :=
  ⟨fun _ => false, fun _ => false, fun _ => 0, fun _ => 0, fun _ => 1000,
   fun _ => 7, fun _ => none, fun _ => 0, 42⟩

/-- A concrete oracle whose stop flag is already set. -/
def oStop : Oracle :=
  ⟨fun _ => true, fun _ => false, fun _ => 0, fun _ => 0, fun _ => 1000,
   fun _ => 7, fun _ => none, fun _ => 0, 42⟩

/-- Each pattern's contribution is a sum of `v * mult`, hence divisible by
any divisor of `mult`. -/
lemma dvd_tokenSum (key : List Char) (mult : Nat) (s : List Char)
    (hd : 60 ∣ mult) : 60 ∣ tokenSum key mult s := by
  unfold tokenSum
  apply List.dvd_sum
  intro x hx
  simp only [List.mem_map] at hx
  obtain ⟨v, _, rfl⟩ := hx
  exact Dvd.dvd.mul_left hd v

/-- C1: evaluation of the duration parser at the spec's example inputs.
Because line 57 strips spaces before matching, the word boundary after a
unit token fails whenever another quantity follows directly, so only the
final token of a space-separated expression survives: the code returns
1800 for the expression claimed to give 5400, and 7200 for the one claimed
to give 14400.  With a non-word separator such as a comma the tokens do
combine, which shows summation itself works and isolates the slip to the
space stripping. -/
theorem parse_tiempo_flattens_spaced_tokens :
    _parse_tiempo ("1hr 30m") = some 1800 ∧
    _parse_tiempo ("45min") = some 2700 ∧
    _parse_tiempo ("2h 2h") = some 7200 ∧
    _parse_tiempo ("1hr,30m") = some 5400 := by decide

/-- C6 counterexample: the input made of the recognized token `45min`
followed by unmatched text fails with the invalid-format error, although
the claim says unmatched text alongside a recognized token is ignored and
is not an error.  (The same token alone parses to 2700.) -/
theorem parse_tiempo_trailing_junk_cex :
    _parse_tiempo ("45min abc") = none ∧
    _parse_tiempo ("45min") = some 2700 := by decide

/-- C6 amended: when no pattern matches anywhere in the normalized input,
the parser fails with the invalid-format error; unmatched text is ignored
as long as the patterns still match after space removal (as with leading
junk), but unmatched word characters directly following a unit token defeat
its word boundary and can turn the whole input invalid. -/
theorem parse_tiempo_no_token_invalid :
    (∀ s : String, (∀ p ∈ patterns, findall p.1 (normalize s.data) = []) →
      _parse_tiempo s = none) ∧
    _parse_tiempo ("abc") = none ∧
    _parse_tiempo ("abc 45min") = some 2700 := by
  refine ⟨?_, by decide, by decide⟩
  intro s h
  have h1 := h (['h', 'r'], 3600) (by simp [patterns])
  have h2 := h (['h'], 3600) (by simp [patterns])
  have h3 := h (['m', 'i', 'n'], 60) (by simp [patterns])
  have h4 := h (['m'], 60) (by simp [patterns])
  simp only at h1 h2 h3 h4
  simp [_parse_tiempo, patterns, tokenSum, h1, h2, h3, h4]

/-- Witness for the amended C6 at the concrete input `abc`. -/
theorem parse_tiempo_no_token_invalid_witness :
    _parse_tiempo ("abc") = none :=
  parse_tiempo_no_token_invalid.1 ("abc") (by decide)

/-- C10: whenever the parser succeeds, the result is a positive multiple of
60: every pattern multiplier is 3600 or 60, and a zero total is rejected,
so no successful parse yields sub-minute granularity or a value below 60. -/
theorem parse_tiempo_multiple_of_sixty (s : String) (t : Nat)
    (h : _parse_tiempo s = some t) : 60 ∣ t ∧ 60 ≤ t := by
  unfold _parse_tiempo at h
  simp only [patterns, List.map_cons, List.map_nil, List.sum_cons,
    List.sum_nil] at h
  split at h
  · exact absurd h (by simp)
  · rename_i h0
    have ht : t = tokenSum (['h', 'r']) 3600 (normalize s.data) +
        (tokenSum (['h']) 3600 (normalize s.data) +
          (tokenSum (['m', 'i', 'n']) 60 (normalize s.data) +
            (tokenSum (['m']) 60 (normalize s.data) + 0))) := by
      exact (Option.some_inj.mp h).symm
    have hdvd : 60 ∣ t := by
      rw [ht]
      refine dvd_add (dvd_tokenSum _ _ _ (by decide)) ?_
      refine dvd_add (dvd_tokenSum _ _ _ (by decide)) ?_
      refine dvd_add (dvd_tokenSum _ _ _ (by decide)) ?_
      exact dvd_add (dvd_tokenSum _ _ _ (by decide)) (dvd_zero 60)
    refine ⟨hdvd, ?_⟩
    have hpos : 0 < t := by
      rcases Nat.eq_zero_or_pos t with h' | h'
      · exact absurd (ht ▸ h') h0
      · exact h'
    exact Nat.le_of_dvd hpos hdvd

/-- Witness for C10 at the concrete input `45min`, which parses to 2700. -/
theorem parse_tiempo_multiple_of_sixty_witness : 60 ∣ 2700 ∧ 60 ≤ 2700 :=
  parse_tiempo_multiple_of_sixty ("45min") 2700 (by decide)

/-- The fuel-indexed digit function agrees with `Nat.digits` whenever the
fuel is at least the number. -/
lemma decDigitsAux_eq : ∀ fuel n : Nat, n ≤ fuel →
    decDigitsAux fuel n = Nat.digits 10 n := by
  intro fuel
  induction fuel with
  | zero =>
    intro n h
    interval_cases n
    simp [decDigitsAux]
  | succ f ih =>
    intro n h
    cases n with
    | zero => simp [decDigitsAux]
    | succ m =>
      unfold decDigitsAux
      rw [ih ((m + 1) / 10) (by omega)]
      exact (Nat.digits_def' (by norm_num) (Nat.succ_pos m)).symm

/-- `decRepr` written through `Nat.digits`. -/
lemma decRepr_eq_digits (n : Nat) : decRepr n =
    (if n = 0 then ['0']
     else ((Nat.digits 10 n).map (fun d => Char.ofNat (48 + d))).reverse) := by
  unfold decRepr
  rw [decDigitsAux_eq n n le_rfl]

/-- The ASCII digit encoding is injective on digits. -/
lemma encDigit_inj : ∀ a < 10, ∀ b < 10,
    Char.ofNat (48 + a) = Char.ofNat (48 + b) → a = b := by decide

/-- A decimal representation never contains the separator `-`. -/
lemma decRepr_no_dash {n : Nat} : '-' ∉ decRepr n := by
  intro hc
  rw [decRepr_eq_digits] at hc
  split at hc
  · simp at hc
  · simp only [List.mem_reverse, List.mem_map] at hc
    obtain ⟨d, hd, hEq⟩ := hc
    have hlt : d < 10 := Nat.digits_lt_base (by norm_num) hd
    interval_cases d <;> exact absurd hEq (by decide)

/-- Mapping the ASCII digit encoding over digit lists is injective. -/
lemma mapEnc_inj : ∀ (l1 l2 : List Nat), (∀ d ∈ l1, d < 10) →
    (∀ d ∈ l2, d < 10) →
    l1.map (fun d => Char.ofNat (48 + d)) = l2.map (fun d => Char.ofNat (48 + d)) →
    l1 = l2 := by
  intro l1
  induction l1 with
  | nil =>
    intro l2 _ _ h
    cases l2 with
    | nil => rfl
    | cons b t => simp at h
  | cons a t ih =>
    intro l2 h1 h2 h
    cases l2 with
    | nil => simp at h
    | cons b t2 =>
      simp only [List.map_cons, List.cons.injEq] at h
      have hab : a = b :=
        encDigit_inj a (h1 a (by simp)) b (h2 b (by simp)) h.1
      subst hab
      rw [ih t2 (fun d hd => h1 d (by simp [hd])) (fun d hd => h2 d (by simp [hd])) h.2]

/-- Helper: a nonzero number whose encoded digit string is `0` is absurd. -/
lemma decRepr_digits_singleton_zero {m : Nat} (hm : m ≠ 0)
    (h2 : (Nat.digits 10 m).map (fun d => Char.ofNat (48 + d)) = ['0']) :
    False := by
  obtain ⟨d, hd1, hd2⟩ : ∃ d, Nat.digits 10 m = [d] ∧ Char.ofNat (48 + d) = '0' := by
    cases hdig : Nat.digits 10 m with
    | nil => rw [hdig] at h2; simp at h2
    | cons x xs =>
      rw [hdig] at h2
      cases xs with
      | nil =>
        simp only [List.map_cons, List.map_nil, List.cons.injEq] at h2
        exact ⟨x, rfl, h2.1⟩
      | cons y ys => simp at h2
  have hdlt : d < 10 := Nat.digits_lt_base (by norm_num) (by rw [hd1]; simp)
  have hd0 : d = 0 := by
    have h48 : Char.ofNat (48 + d) = Char.ofNat (48 + 0) := by simpa using hd2
    exact encDigit_inj d hdlt 0 (by norm_num) h48
  have hzero : m = 0 := by
    have hof := Nat.ofDigits_digits 10 m
    rw [hd1, hd0] at hof
    simpa [Nat.ofDigits] using hof.symm
  exact hm hzero

/-- The decimal representation is injective. -/
lemma decRepr_inj {n m : Nat} (h : decRepr n = decRepr m) : n = m := by
  rw [decRepr_eq_digits, decRepr_eq_digits] at h
  by_cases hn : n = 0 <;> by_cases hm : m = 0
  · exact hn.trans hm.symm
  · rw [if_pos hn, if_neg hm] at h
    exact absurd (by simpa using (congrArg List.reverse h).symm)
      (fun h2 => (decRepr_digits_singleton_zero hm h2).elim)
  · rw [if_neg hn, if_pos hm] at h
    exact absurd (by simpa using congrArg List.reverse h)
      (fun h2 => (decRepr_digits_singleton_zero hn h2).elim)
  · rw [if_neg hn, if_neg hm] at h
    have h2 := List.reverse_injective h
    have h3 := mapEnc_inj _ _
      (fun d hd => Nat.digits_lt_base (by norm_num) hd)
      (fun d hd => Nat.digits_lt_base (by norm_num) hd) h2
    calc n = Nat.ofDigits 10 (Nat.digits 10 n) := (Nat.ofDigits_digits 10 n).symm
    _ = Nat.ofDigits 10 (Nat.digits 10 m) := by rw [h3]
    _ = m := Nat.ofDigits_digits 10 m

/-- Splitting at a separator absent from both prefixes is unambiguous. -/
lemma append_dash_inj : ∀ (xs ys zs ws : List Char), '-' ∉ xs → '-' ∉ ys →
    xs ++ '-' :: zs = ys ++ '-' :: ws → xs = ys ∧ zs = ws := by
  intro xs
  induction xs with
  | nil =>
    intro ys zs ws _ hy h
    cases ys with
    | nil => simpa using h
    | cons b t =>
      exfalso
      simp only [List.nil_append, List.cons_append, List.cons.injEq] at h
      exact hy (by rw [← h.1]; simp)
  | cons a t ih =>
    intro ys zs ws hx hy h
    cases ys with
    | nil =>
      exfalso
      simp only [List.nil_append, List.cons_append, List.cons.injEq] at h
      exact hx (by rw [h.1]; simp)
    | cons b t2 =>
      simp only [List.cons_append, List.cons.injEq] at h
      obtain ⟨h1, h2⟩ := ih t2 zs ws (fun hm => hx (by simp [hm]))
        (fun hm => hy (by simp [hm])) h.2
      exact ⟨by rw [h.1, h1], h2⟩

/-- C9 counterexample: a run of two creation events in which the
millisecond timestamp and the 20-bit random draw repeat (the process id is
constant within a run by construction) produces two artifacts with the
same name — the returned identifier is not unique per call. -/
theorem create_file_collision_cex :
    (createdNames (run_simulator o0 ("45min") 2 ("recepcion") false 1).1).length = 2 ∧
    ¬ (createdNames (run_simulator o0 ("45min") 2 ("recepcion") false 1).1).Nodup := by
  have hp : _parse_tiempo ("45min") = some 2700 := by decide
  norm_num [run_simulator, hp, runCycles, runEvents, eventStep, tryBody,
    intervalFor, o0, createdNames, drawName, drawExt, drawSize, _create_file,
    _random_size, extChoice, List.range_succ, max_def]
  decide

/-- C9 amended: the identifier `timestamp-pid-randbits` determines its
three components — two creation calls return distinct identifiers exactly
when they differ in the millisecond timestamp, the process id, or the
20-bit random draw; calls agreeing on all three (possible within one
process and one millisecond) collide. -/
theorem uniqueId_injective (t p b t2 p2 b2 : Nat)
    (h : uniqueId t p b = uniqueId t2 p2 b2) : t = t2 ∧ p = p2 ∧ b = b2 := by
  unfold uniqueId at h
  obtain ⟨h1, h2⟩ := append_dash_inj _ _ _ _ decRepr_no_dash decRepr_no_dash h
  obtain ⟨h3, h4⟩ := append_dash_inj _ _ _ _ decRepr_no_dash decRepr_no_dash h2
  exact ⟨decRepr_inj h1, decRepr_inj h3, decRepr_inj h4⟩

/-- Witness for the amended C9 at concrete components. -/
theorem uniqueId_injective_witness :
    (1593 : Nat) = 1593 ∧ (42 : Nat) = 42 ∧ (7 : Nat) = 7 :=
  uniqueId_injective 1593 42 7 1593 42 7 (by decide)

/-- C2 counterexample: calling the run with event count 0 does raise the
invalid-count error, but only after the directory-creation and log-setup
effects of lines 84-85 — the trace before the error is not empty, contrary
to the claim that no directory is created and no sink is touched. -/
theorem run_invalid_count_cex :
    run_simulator o0 ("45min") 0 ("recepcion") false 1 =
      ([Effect.ensureDirs ("recepcion"), Effect.setupLogging],
        some RunError.invalidCount) ∧
    (run_simulator o0 ("45min") 0 ("recepcion") false 1).1 ≠ [] := by decide

/-- C2 amended: with a parseable duration and `event_count ≤ 0` the run
raises the invalid-count error before any cycle begins — no event records,
no artifact creation, no sleeps — but after the directory creation and the
log-sink setup (with its possible header write); with an unparseable
duration the invalid-format error wins instead. -/
theorem run_invalid_count_amended (o : Oracle) (tiempo : String) (c : Int)
    (base : String) (loop : Bool) (fuel : Nat) (T : Nat)
    (hT : _parse_tiempo tiempo = some T) (hc : c ≤ 0) :
    run_simulator o tiempo c base loop fuel =
      ([Effect.ensureDirs base, Effect.setupLogging],
        some RunError.invalidCount) := by
  unfold run_simulator
  rw [hT]
  simp [hc]

/-- Witness for the amended C2 at concrete inputs. -/
theorem run_invalid_count_amended_witness :
    run_simulator o0 ("45min") (-3) ("recepcion") false 1 =
      ([Effect.ensureDirs ("recepcion"), Effect.setupLogging],
        some RunError.invalidCount) :=
  run_invalid_count_amended o0 ("45min") (-3) ("recepcion") false 1 2700
    (by decide) (by decide)


/-- The invariant of C7 on a single effect: artifacts and metric rows
carry a byte size in `[1, MAX_SIZE]` and an extension from the fixed set;
other effects are unconstrained. -/
def effectOk : Effect → Prop
  | Effect.metric _ _ ext size _ => 1 ≤ size ∧ size ≤ MAX_SIZE ∧ ext ∈ EXTENSIONS
  | Effect.createFile _ size => 1 ≤ size ∧ size ≤ MAX_SIZE
  | _ => True

lemma drawSize_bounds (o : Oracle) (n : Nat) :
    1 ≤ drawSize o n ∧ drawSize o n ≤ MAX_SIZE := by
  unfold drawSize _random_size MAX_SIZE
  have h : o.sizeRand n % (5 * 1024) < 5 * 1024 := Nat.mod_lt _ (by norm_num)
  rw [if_pos (by norm_num)]
  omega

lemma extChoice_mem (r : Nat) : extChoice r ∈ EXTENSIONS := by
  have h : r % 5 = 0 ∨ r % 5 = 1 ∨ r % 5 = 2 ∨ r % 5 = 3 ∨ r % 5 = 4 := by omega
  unfold extChoice
  have hl : EXTENSIONS.length = 5 := by decide
  rw [hl]
  rcases h with h | h | h | h | h <;> rw [h] <;> decide

lemma drawExt_mem (o : Oracle) (n : Nat) : drawExt o n ∈ EXTENSIONS :=
  extChoice_mem _

lemma tryBody_effectOk (o : Oracle) (s c1 : ℚ) (i n : Nat) :
    ∀ e ∈ tryBody o s c1 i n, effectOk e := by
  intro e he
  unfold tryBody at he
  split at he
  · simp only [List.mem_singleton] at he
    subst he
    trivial
  · split at he
    · simp only [List.mem_singleton] at he
      subst he
      trivial
    · simp only [List.mem_cons, List.mem_singleton, List.not_mem_nil, or_false] at he
      rcases he with he | he <;> subst he
      · exact ⟨(drawSize_bounds o n).1, (drawSize_bounds o n).2⟩
      · exact ⟨(drawSize_bounds o n).1, (drawSize_bounds o n).2, drawExt_mem o n⟩

lemma eventStep_effectOk (o : Oracle) (interval s : ℚ) (i : Nat) (st : SimState) :
    ∀ e ∈ (eventStep o interval s i st).1, effectOk e := by
  intro e he
  simp only [eventStep] at he
  split at he
  · simp at he
  · simp only [List.mem_append] at he
    rcases he with he | he
    · exact tryBody_effectOk o s _ i st.n e he
    · split at he
      · simp only [List.mem_singleton] at he
        subst he
        trivial
      · simp at he

lemma runEvents_effectOk (o : Oracle) (interval s : ℚ) :
    ∀ (is : List Nat) (st : SimState),
      ∀ e ∈ (runEvents o interval s is st).1, effectOk e := by
  intro is
  induction is with
  | nil =>
    intro st e he
    simp [runEvents] at he
  | cons i is ih =>
    intro st e he
    simp only [runEvents] at he
    split at he
    · exact eventStep_effectOk o interval s i st e he
    · simp only [List.mem_append] at he
      rcases he with he | he
      · exact eventStep_effectOk o interval s i st e he
      · exact ih _ e he

lemma runCycles_effectOk (o : Oracle) (T cant : Nat) (interval : ℚ) (loop : Bool) :
    ∀ (fuel : Nat) (st : SimState),
      ∀ e ∈ (runCycles o T cant interval loop fuel st).1, effectOk e := by
  intro fuel
  induction fuel with
  | zero =>
    intro st e he
    simp [runCycles] at he
  | succ f ih =>
    intro st e he
    simp only [runCycles] at he
    split at he
    · exact runEvents_effectOk o interval st.clock _ st e he
    · split at he
      · exact runEvents_effectOk o interval st.clock _ st e he
      · simp only [List.mem_append] at he
        rcases he with (he | he) | he
        · exact runEvents_effectOk o interval st.clock _ st e he
        · split at he
          · simp only [List.mem_singleton] at he
            subst he
            trivial
          · simp at he
        · exact ih _ e he

/-- C7: every effect of every run is well-formed — in particular every
artifact created and every metric record emitted, in any cycle of any run,
has a byte size between 1 and `MAX_SIZE` inclusive and an extension drawn
from `EXTENSIONS`. -/
theorem run_simulator_artifact_bounds (o : Oracle) (tiempo : String) (c : Int)
    (base : String) (loop : Bool) (fuel : Nat) :
    ∀ e ∈ (run_simulator o tiempo c base loop fuel).1, effectOk e := by
  intro e he
  unfold run_simulator at he
  split at he
  · simp only [List.mem_cons, List.mem_singleton, List.not_mem_nil, or_false] at he
    rcases he with he | he <;> subst he <;> trivial
  · split at he
    · simp only [List.mem_cons, List.mem_singleton, List.not_mem_nil, or_false] at he
      rcases he with he | he <;> subst he <;> trivial
    · simp only [List.cons_append, List.nil_append, List.mem_cons] at he
      rcases he with he | he | he
      · subst he; trivial
      · subst he; trivial
      · exact runCycles_effectOk o _ _ _ loop fuel ⟨0, 0⟩ e he

/-- Witness for C7: the artifact of a concrete one-event run. -/
theorem run_simulator_artifact_bounds_witness :
    effectOk (Effect.createFile ("1000-42-7.payf") 1) := by
  refine run_simulator_artifact_bounds o0 ("45min") 1 ("recepcion") false 1 _ ?_
  have hp : _parse_tiempo ("45min") = some 2700 := by decide
  norm_num [run_simulator, hp, runCycles, runEvents, eventStep, tryBody,
    intervalFor, o0, drawName, drawExt, drawSize, _create_file,
    _random_size, extChoice, List.range_succ, max_def]
  decide

lemma sleepTotal_tryBody (o : Oracle) (s c1 : ℚ) (i n : Nat) :
    sleepTotal (tryBody o s c1 i n) = 0 := by
  unfold tryBody sleepTotal
  split
  · simp
  · split <;> simp

lemma sleepTotal_append (a b : List Effect) :
    sleepTotal (a ++ b) = sleepTotal a + sleepTotal b := by
  unfold sleepTotal
  rw [List.map_append, List.sum_append]

/-- C4: the interval is `total_seconds / event_count` clamped to be
nonnegative, and after each event `i` the step sleeps exactly
`max(0, cycle_start + (i+1)*interval - now)`; consequently the clock at
which the next event starts is `max(now, cycle_start + (i+1)*interval)` —
wake-up targets are anchored to the cycle start, so a slow iteration
shrinks the following sleep instead of shifting every later target. -/
theorem pacing_anchored_to_cycle_start (o : Oracle) (interval start_cycle : ℚ)
    (i : Nat) (st : SimState) (h : o.stop (2 * st.n) = false) :
    sleepTotal (eventStep o interval start_cycle i st).1 =
      max 0 (start_cycle + ((i : ℚ) + 1) * interval - (st.clock + o.procTime st.n)) ∧
    (eventStep o interval start_cycle i st).2.1.clock =
      max (st.clock + o.procTime st.n) (start_cycle + ((i : ℚ) + 1) * interval) ∧
    (∀ (T : Nat) (c : Int), 0 < c → intervalFor T c = max ((T : ℚ) / (c : ℚ)) 0) := by
  refine ⟨?_, ?_, ?_⟩
  · simp only [eventStep, h, Bool.false_eq_true, if_false]
    rw [sleepTotal_append, sleepTotal_tryBody]
    split
    · rename_i hpos
      simp only [sleepTotal, List.map_cons, List.map_nil, List.sum_cons, List.sum_nil]
      rw [max_eq_right (le_of_lt hpos)]
      ring
    · rename_i hpos
      push_neg at hpos
      simp only [sleepTotal, List.map_nil, List.sum_nil]
      rw [max_eq_left (by linarith)]
      ring
  · simp only [eventStep, h, Bool.false_eq_true, if_false]
    split
    · rename_i hpos
      dsimp only
      exact (max_eq_right (by linarith)).symm
    · rename_i hpos
      push_neg at hpos
      dsimp only
      exact (max_eq_left (by linarith)).symm
  · intro T c hc
    unfold intervalFor
    rw [if_pos hc]

/-- Witness for C4 at a concrete event step. -/
theorem pacing_anchored_witness :
    sleepTotal (eventStep o0 2700 0 0 ⟨0, 0⟩).1 =
      max 0 (0 + ((0 : ℚ) + 1) * 2700 - (0 + o0.procTime 0)) ∧
    (eventStep o0 2700 0 0 ⟨0, 0⟩).2.1.clock =
      max ((0 : ℚ) + o0.procTime 0) (0 + ((0 : ℚ) + 1) * 2700) ∧
    (∀ (T : Nat) (c : Int), 0 < c → intervalFor T c = max ((T : ℚ) / (c : ℚ)) 0) :=
  pacing_anchored_to_cycle_start o0 2700 0 0 ⟨0, 0⟩ rfl

/-- C5: a failing event attempt — simulated (`random() < p`, line 101) or
a real materialization failure — emits exactly one error record carrying
the 0-based event index and the failure description, emits no metric row,
creates no artifact, does not force the stopped flag (the loop continues
to the next event, advancing the counter), and no in-loop failure ever
propagates: once the pre-flight checks pass, the run returns without error
for every oracle, i.e. under any pattern of failures. -/
theorem failure_isolation :
    (∀ (o : Oracle) (interval start_cycle : ℚ) (i : Nat) (st : SimState),
      o.stop (2 * st.n) = false → o.failSim st.n = true →
        errorRecords (eventStep o interval start_cycle i st).1 = [(i, simFailureMsg)] ∧
        metricRecords (eventStep o interval start_cycle i st).1 = [] ∧
        creCount (eventStep o interval start_cycle i st).1 = 0 ∧
        (eventStep o interval start_cycle i st).2.2 = o.stop (2 * st.n + 1) ∧
        (eventStep o interval start_cycle i st).2.1.n = st.n + 1) ∧
    (∀ (o : Oracle) (interval start_cycle : ℚ) (i : Nat) (st : SimState) (msg : String),
      o.stop (2 * st.n) = false → o.failSim st.n = false → o.ioFail st.n = some msg →
        errorRecords (eventStep o interval start_cycle i st).1 = [(i, msg)] ∧
        metricRecords (eventStep o interval start_cycle i st).1 = [] ∧
        creCount (eventStep o interval start_cycle i st).1 = 0 ∧
        (eventStep o interval start_cycle i st).2.2 = o.stop (2 * st.n + 1) ∧
        (eventStep o interval start_cycle i st).2.1.n = st.n + 1) ∧
    (∀ (o : Oracle) (tiempo : String) (c : Int) (base : String) (loop : Bool)
        (fuel : Nat) (T : Nat),
      _parse_tiempo tiempo = some T → 0 < c →
        (run_simulator o tiempo c base loop fuel).2 = none) := by
  refine ⟨?_, ?_, ?_⟩
  · intro o interval start_cycle i st hstop hfail
    simp only [eventStep, hstop, Bool.false_eq_true, if_false, tryBody, hfail,
      if_true]
    refine ⟨?_, ?_, ?_, ?_, ?_⟩
    · split <;> simp [errorRecords]
    · split <;> simp [metricRecords]
    · split <;> simp [creCount]
    · trivial
    · trivial
  · intro o interval start_cycle i st msg hstop hfail hio
    simp only [eventStep, hstop, hfail, Bool.false_eq_true, if_false, tryBody,
      hio]
    refine ⟨?_, ?_, ?_, ?_, ?_⟩
    · split <;> simp [errorRecords]
    · split <;> simp [metricRecords]
    · split <;> simp [creCount]
    · trivial
    · trivial
  · intro o tiempo c base loop fuel T hT hc
    unfold run_simulator
    rw [hT]
    have hc2 : ¬ (c ≤ 0) := by omega
    simp [hc2]

/-- A concrete oracle whose simulated-failure draw always fires. -/
def oFail : Oracle :=
  ⟨fun _ => false, fun _ => true, fun _ => 0, fun _ => 0, fun _ => 1000,
   fun _ => 7, fun _ => none, fun _ => 0, 42⟩

/-- Witness for C5: a concrete always-failing oracle. -/
theorem failure_isolation_witness :
    errorRecords (eventStep oFail 2700 0 0 ⟨0, 0⟩).1 = [(0, simFailureMsg)] ∧
    (run_simulator oFail ("45min") 1 ("recepcion") false 1).2 = none :=
  ⟨(failure_isolation.1 oFail 2700 0 0 ⟨0, 0⟩ rfl rfl).1,
   failure_isolation.2.2 oFail ("45min") 1 ("recepcion") false 1 2700
     (by decide) (by decide)⟩

/-- C8: when `repeat` is false the scheduler runs exactly one cycle (the
result is independent of any extra fuel); when `repeat` is true, one
recursion step is one cycle followed by an idle sleep of exactly
`max(0, total_seconds - elapsed_cycle)` when positive, and the next cycle
starts at clock `start + max(elapsed, total_seconds)` — in particular,
when the cycle finished within `total_seconds`, successive cycle starts
are spaced by exactly `total_seconds` of model time. -/
theorem cycle_repetition :
    (∀ (o : Oracle) (T cant : Nat) (interval : ℚ) (fuel : Nat) (st : SimState),
      runCycles o T cant interval false (fuel + 1) st =
        runCycles o T cant interval false 1 st) ∧
    (∀ (o : Oracle) (T cant : Nat) (interval : ℚ) (fuel : Nat) (st : SimState),
      (runEvents o interval st.clock (List.range cant) st).2.2 = false →
      (runCycles o T cant interval true (fuel + 1) st).1 =
        (runEvents o interval st.clock (List.range cant) st).1 ++
        (if (0 : ℚ) < max 0 ((T : ℚ) -
            ((runEvents o interval st.clock (List.range cant) st).2.1.clock - st.clock))
         then [Effect.sleep (max 0 ((T : ℚ) -
            ((runEvents o interval st.clock (List.range cant) st).2.1.clock - st.clock)))]
         else []) ++
        (runCycles o T cant interval true fuel
          ⟨st.clock + max
              ((runEvents o interval st.clock (List.range cant) st).2.1.clock - st.clock)
              ((T : ℚ)),
            (runEvents o interval st.clock (List.range cant) st).2.1.n⟩).1) ∧
    (∀ (o : Oracle) (T cant : Nat) (interval : ℚ) (st : SimState),
      (runEvents o interval st.clock (List.range cant) st).2.1.clock - st.clock ≤ (T : ℚ) →
      st.clock + max
          ((runEvents o interval st.clock (List.range cant) st).2.1.clock - st.clock)
          ((T : ℚ)) = st.clock + (T : ℚ)) := by
  refine ⟨?_, ?_, ?_⟩
  · intro o T cant interval fuel st
    simp only [runCycles]
    split
    · rfl
    · simp
  · intro o T cant interval fuel st h
    simp only [runCycles, h, Bool.false_eq_true, if_false]
    have htr : ¬ (true = false) := by simp
    rw [if_neg htr]
    set r := runEvents o interval st.clock (List.range cant) st with hr
    set elapsed : ℚ := r.2.1.clock - st.clock with helapsed
    by_cases hidle : (0 : ℚ) < max 0 ((T : ℚ) - elapsed)
    · rw [if_pos hidle, if_pos hidle]
      have hTe : (0 : ℚ) < (T : ℚ) - elapsed := by
        rcases lt_max_iff.mp hidle with h1 | h2
        · exact absurd h1 (lt_irrefl 0)
        · exact h2
      have hmax1 : max 0 ((T : ℚ) - elapsed) = (T : ℚ) - elapsed :=
        max_eq_right (le_of_lt hTe)
      have hmax2 : max elapsed ((T : ℚ)) = (T : ℚ) := max_eq_right (by linarith)
      have hst : (⟨r.2.1.clock + max 0 ((T : ℚ) - elapsed), r.2.1.n⟩ : SimState) =
          ⟨st.clock + max elapsed ((T : ℚ)), r.2.1.n⟩ := by
        rw [hmax1, hmax2]
        have : r.2.1.clock + ((T : ℚ) - elapsed) = st.clock + (T : ℚ) := by
          rw [helapsed]; ring
        rw [this]
      rw [hst]
    · rw [if_neg hidle, if_neg hidle]
      have hTe : (T : ℚ) - elapsed ≤ 0 := by
        by_contra hcon
        push_neg at hcon
        exact hidle (lt_max_of_lt_right hcon)
      have hmax2 : max elapsed ((T : ℚ)) = elapsed := max_eq_left (by linarith)
      have hst : r.2.1 = (⟨st.clock + max elapsed ((T : ℚ)), r.2.1.n⟩ : SimState) := by
        rw [hmax2]
        have : st.clock + elapsed = r.2.1.clock := by rw [helapsed]; ring
        rw [this]
      rw [← hst]
  · intro o T cant interval st h
    rw [max_eq_right h]

/-- Witness for C8 at a concrete one-event configuration. -/
theorem cycle_repetition_witness :
    runCycles o0 2700 1 2700 false 2 ⟨0, 0⟩ = runCycles o0 2700 1 2700 false 1 ⟨0, 0⟩ ∧
    (0 : ℚ) + max
        ((runEvents o0 2700 (0 : ℚ) (List.range 1) ⟨0, 0⟩).2.1.clock - (0 : ℚ))
        ((2700 : Nat) : ℚ) = (0 : ℚ) + ((2700 : Nat) : ℚ) := by
  constructor
  · exact cycle_repetition.1 o0 2700 1 2700 1 ⟨0, 0⟩
  · refine cycle_repetition.2.2 o0 2700 1 2700 ⟨0, 0⟩ ?_
    norm_num [runEvents, eventStep, tryBody, o0, List.range_succ, max_def]

/-- Monotonicity of the stop flag: once set, it stays set (the signal
handler only ever writes `True`). -/
def stopMono (o : Oracle) : Prop :=
  ∀ i j : Nat, i ≤ j → o.stop i = true → o.stop j = true

lemma recCount_append (a b : List Effect) :
    recCount (a ++ b) = recCount a + recCount b := by
  unfold recCount
  rw [List.map_append, List.sum_append]

lemma creCount_append (a b : List Effect) :
    creCount (a ++ b) = creCount a + creCount b := by
  unfold creCount
  rw [List.map_append, List.sum_append]

lemma eventStep_stopped (o : Oracle) (interval s : ℚ) (i : Nat) (st : SimState)
    (h : o.stop (2 * st.n) = true) :
    eventStep o interval s i st = ([], st, true) := by
  simp [eventStep, h]

lemma recCount_tryBody (o : Oracle) (s c1 : ℚ) (i n : Nat) :
    recCount (tryBody o s c1 i n) ≤ 1 := by
  unfold tryBody recCount
  split
  · simp
  · split <;> simp

lemma creCount_tryBody (o : Oracle) (s c1 : ℚ) (i n : Nat) :
    creCount (tryBody o s c1 i n) ≤ 1 := by
  unfold tryBody creCount
  split
  · simp
  · split <;> simp

lemma recCount_nil_eff : recCount [] = 0 := rfl

lemma creCount_nil_eff : creCount [] = 0 := rfl

lemma recCount_sleep_one (d : ℚ) : recCount [Effect.sleep d] = 0 := rfl

lemma creCount_sleep_one (d : ℚ) : creCount [Effect.sleep d] = 0 := rfl

lemma recCount_pre (b : String) :
    recCount [Effect.ensureDirs b, Effect.setupLogging] = 0 := rfl

lemma creCount_pre (b : String) :
    creCount [Effect.ensureDirs b, Effect.setupLogging] = 0 := rfl

lemma eventStep_counts (o : Oracle) (interval s : ℚ) (i : Nat) (st : SimState)
    (h : o.stop (2 * st.n) = false) :
    recCount (eventStep o interval s i st).1 ≤ 1 ∧
    creCount (eventStep o interval s i st).1 ≤ 1 ∧
    (eventStep o interval s i st).2.1.n = st.n + 1 := by
  simp only [eventStep, h, Bool.false_eq_true, if_false]
  refine ⟨?_, ?_, ?_⟩
  · rw [recCount_append]
    have h1 := recCount_tryBody o s (st.clock + o.procTime st.n) i st.n
    split
    · dsimp only
      rw [recCount_sleep_one]
      omega
    · dsimp only
      rw [recCount_nil_eff]
      omega
  · rw [creCount_append]
    have h1 := creCount_tryBody o s (st.clock + o.procTime st.n) i st.n
    split
    · dsimp only
      rw [creCount_sleep_one]
      omega
    · dsimp only
      rw [creCount_nil_eff]
      omega
  · trivial

lemma runEvents_budget (o : Oracle) (k : Nat) (hmono : stopMono o)
    (hset : o.stop (2 * (k + 1)) = true) (interval s : ℚ) :
    ∀ (is : List Nat) (st : SimState),
      recCount (runEvents o interval s is st).1 +
          ((k + 1) - (runEvents o interval s is st).2.1.n) ≤ (k + 1) - st.n ∧
      creCount (runEvents o interval s is st).1 +
          ((k + 1) - (runEvents o interval s is st).2.1.n) ≤ (k + 1) - st.n := by
  intro is
  induction is with
  | nil =>
    intro st
    simp [runEvents, recCount, creCount]
  | cons i is ih =>
    intro st
    by_cases hstop : o.stop (2 * st.n) = true
    · simp [runEvents, eventStep_stopped o interval s i st hstop, recCount, creCount]
    · have hstopf : o.stop (2 * st.n) = false := by
        cases hval : o.stop (2 * st.n)
        · rfl
        · exact absurd hval hstop
      have hnk : st.n ≤ k := by
        by_contra hcon
        push_neg at hcon
        have hmo := hmono (2 * (k + 1)) (2 * st.n) (by omega) hset
        rw [hstopf] at hmo
        exact Bool.false_ne_true hmo
      obtain ⟨hr, hc, hn⟩ := eventStep_counts o interval s i st hstopf
      simp only [runEvents]
      split
      · constructor <;> omega
      · dsimp only
        obtain ⟨ih1, ih2⟩ := ih (eventStep o interval s i st).2.1
        rw [hn] at ih1 ih2
        rw [recCount_append, creCount_append]
        constructor <;> omega

lemma runCycles_budget (o : Oracle) (k : Nat) (hmono : stopMono o)
    (hset : o.stop (2 * (k + 1)) = true) (T cant : Nat) (interval : ℚ)
    (loop : Bool) :
    ∀ (fuel : Nat) (st : SimState),
      recCount (runCycles o T cant interval loop fuel st).1 +
          ((k + 1) - (runCycles o T cant interval loop fuel st).2.1.n) ≤ (k + 1) - st.n ∧
      creCount (runCycles o T cant interval loop fuel st).1 +
          ((k + 1) - (runCycles o T cant interval loop fuel st).2.1.n) ≤ (k + 1) - st.n := by
  intro fuel
  induction fuel with
  | zero =>
    intro st
    simp [runCycles, recCount, creCount]
  | succ f ih =>
    intro st
    simp only [runCycles]
    split
    · exact runEvents_budget o k hmono hset interval st.clock (List.range cant) st
    · split
      · exact runEvents_budget o k hmono hset interval st.clock (List.range cant) st
      · obtain ⟨h1, h2⟩ := runEvents_budget o k hmono hset interval st.clock (List.range cant) st
        dsimp only
        rw [recCount_append, recCount_append, creCount_append, creCount_append]
        split
        · dsimp only
          obtain ⟨ih1, ih2⟩ := ih ⟨(runEvents o interval st.clock (List.range cant) st).2.1.clock +
            max 0 ((T : ℚ) - ((runEvents o interval st.clock (List.range cant) st).2.1.clock - st.clock)),
            (runEvents o interval st.clock (List.range cant) st).2.1.n⟩
          dsimp only at ih1 ih2
          rw [recCount_sleep_one, creCount_sleep_one]
          constructor <;> omega
        · dsimp only
          obtain ⟨ih1, ih2⟩ := ih (runEvents o interval st.clock (List.range cant) st).2.1
          rw [recCount_nil_eff, creCount_nil_eff]
          constructor <;> omega

/-- C3: the stop flag is read at the head of every event iteration (line
98) and again after the per-event sleep (line 119), and the run returns
immediately at either checkpoint; consequently, for a monotone stop flag
that is set by the time the head check of event `k+1` runs (i.e. set after
the `k`-th event, for any run shape, any cycle count and any oracle), the
whole run emits at most `k+1` Event/Error records combined and creates at
most `k+1` artifacts. -/
theorem stop_terminates_promptly (o : Oracle) (tiempo : String) (c : Int)
    (base : String) (loop : Bool) (fuel : Nat) (k : Nat)
    (hmono : stopMono o) (hset : o.stop (2 * (k + 1)) = true) :
    recCount (run_simulator o tiempo c base loop fuel).1 ≤ k + 1 ∧
    creCount (run_simulator o tiempo c base loop fuel).1 ≤ k + 1 ∧
    (∀ (interval s : ℚ) (i : Nat) (st : SimState), o.stop (2 * st.n) = true →
      eventStep o interval s i st = ([], st, true)) ∧
    (∀ (interval s : ℚ) (i : Nat) (st : SimState), o.stop (2 * st.n) = false →
      (eventStep o interval s i st).2.2 = o.stop (2 * st.n + 1)) := by
  refine ⟨?_, ?_, ?_, ?_⟩
  · unfold run_simulator
    split
    · simp [recCount]
    · split
      · simp [recCount]
      · rename_i T hT hc
        obtain ⟨h1, _⟩ := runCycles_budget o k hmono hset T c.toNat
          (intervalFor T c) loop fuel ⟨0, 0⟩
        dsimp only
        rw [recCount_append, recCount_pre]
        omega
  · unfold run_simulator
    split
    · simp [creCount]
    · split
      · simp [creCount]
      · rename_i T hT hc
        obtain ⟨_, h2⟩ := runCycles_budget o k hmono hset T c.toNat
          (intervalFor T c) loop fuel ⟨0, 0⟩
        dsimp only
        rw [creCount_append, creCount_pre]
        omega
  · intro interval s i st h
    exact eventStep_stopped o interval s i st h
  · intro interval s i st h
    simp [eventStep, h]

/-- Witness for C3: a run whose stop flag is set from the start emits at
most one record although three events were requested. -/
theorem stop_terminates_promptly_witness :
    recCount (run_simulator oStop ("45min") 3 ("recepcion") false 1).1 ≤ 1 ∧
    creCount (run_simulator oStop ("45min") 3 ("recepcion") false 1).1 ≤ 1 :=
  ⟨(stop_terminates_promptly oStop ("45min") 3 ("recepcion") false 1 0
      (fun _ _ _ hh => hh) rfl).1,
   (stop_terminates_promptly oStop ("45min") 3 ("recepcion") false 1 0
      (fun _ _ _ hh => hh) rfl).2.1⟩

end TaskMaster
